import Mathlib

/-!
Shallow embedding of the scoring engine of the InformationRetrieval1
repository: the mixture language model of
`models/GeneralizedLanguageModel.py` and the tf-idf scorer of
`models/TFIDF.py`.

Modelling conventions.

All arithmetic that Python performs on floats is modelled over the exact
rationals `ℚ`.  Term identifiers and internal document identifiers are
`Nat`; tokens and external document identifiers are `String`.

The corpus index and the word2vec embedding model are external
collaborators of the repository (pyndri and gensim).  They enter the
embedding as abstract fields of the model state: a `documents` map
standing for `index.document`, the `id2token` and `token2id` maps
standing for `index.get_dictionary()`, and a similarity oracle `sim t u`
standing for the cosine similarity of the word2vec vectors of tokens `t`
and `u` (the numpy matrix expressions in the source reduce row-wise to
exactly this scalar, which involves irrational square roots of norms and
therefore cannot itself be a rational-valued program).  The natural
logarithm `math.log`, applied only to strictly positive arguments, is an
abstract field `log`; `math.log` on a non-positive argument raises
`ValueError` with message `math domain error`, which is modelled by
`Except String`.

A Python `dict` iterates over its keys; `sum(d)` for a dict `d` is the
sum of the keys.  The collection frequency table `col_freq` is therefore
embedded as its key list `col_vocab` together with the value map
`col_freq`, so that both the key-sum the source computes and the
value-sum can be expressed.

The filesystem seen by `run` is modelled as the list of paths that
exist; writing the run file appends its path.  Serialisation of the
ranked output (`Helper.write_run`, not part of the scoring engine) is
out of scope, so `run` returns the collected data itself.
-/

namespace IR

/-- State of a `GeneralizedLanguageModel` instance as built by
`__init__`: the external index (`documents`, `id2token`, `token2id`),
the inverted index, the query table, the document length table, the
collection frequency table (key list plus value map), the two persisted
caches (`doc_sim_sum`, and `col_Nt` with `sum_nT`), the mixing weights,
the embedding similarity oracle `sim`, and the abstract logarithm. -/
structure GLM where
  documents : Nat → String × List Nat
  inverted_index : Nat → Nat → Option Nat
  queries : Nat → List Nat
  doc_len : Nat → Nat
  col_vocab : List Nat
  col_freq : Nat → Nat
  id2token : Nat → String
  token2id : String → Nat
  sim : String → String → ℚ
  doc_sim_sum : Nat → ℚ
  col_Nt : String → List String
  sum_nT : String → ℚ
  log : ℚ → ℚ
  lamb : ℚ
  alph : ℚ
  beta : ℚ

/-- `self.col_size = sum(col_freq)` from `__init__`: iterating a Python
dict yields its keys, so this is the sum of the term identifiers that
are keys of the collection frequency table. -/
def col_size (m : GLM) : Nat := m.col_vocab.sum

/-- The collection size as the spec words it: the sum of the per-term
frequency values of the Collection Frequency Table.  Kept for comparison
with `col_size`, which embeds what the source computes. -/
def col_size_values (m : GLM) : Nat := (m.col_vocab.map m.col_freq).sum

/-- `compute_term_likelihood`: in-document frequency of the query term
(0 when absent, via `dict.get(int_doc_id, 0)`) divided by the document
length. -/
def compute_term_likelihood (m : GLM) (query_term_id int_doc_id : Nat) : ℚ :=
  (((m.inverted_index query_term_id int_doc_id).getD 0 : ℚ)) / ((m.doc_len int_doc_id : ℚ))

/-- `compute_bg_likelihood`: collection frequency of the query term
divided by `self.col_size`.  Python raises `ZeroDivisionError` when
`col_size` is 0, while division on `ℚ` is total; every concrete model
state on which the theorems below evaluate `score` therefore carries a
collection frequency table whose key sum is non-zero, keeping the
embedding off the collapsed error path. -/
def compute_bg_likelihood (m : GLM) (query_term_id : Nat) : ℚ :=
  ((m.col_freq query_term_id : ℚ)) / ((col_size m : ℚ))

/-- `compute_doc_transform`: the document term stream is filtered of
zero padding; the loop `for idx, term_id in enumerate(filter_doc_arr)`
builds one row per OCCURRENCE of a term, with
`term_frequencies[idx] = np.sum(filter_doc_arr == term_id)` the count of
that term in the filtered stream; row `idx` of `similarities` is the
cosine similarity of that occurrence to the query term; the result is
the sum over rows of `similarity * frequency / (doc_sim_sum * doc_len)`. -/
def compute_doc_transform (m : GLM) (query_term_id int_doc_id : Nat) (doc : List Nat) : ℚ :=
  let filt := doc.filter (fun t => t ≠ 0)
  (filt.map (fun term_id =>
      m.sim (m.id2token term_id) (m.id2token query_term_id) * ((filt.count term_id : ℚ))
        / (m.doc_sim_sum int_doc_id * ((m.doc_len int_doc_id : ℚ))))).sum

/-- The document transform as the spec words it: each DISTINCT term of
the filtered stream contributes exactly once, weighted once by its
in-document frequency.  Kept for comparison with
`compute_doc_transform`, which embeds what the source computes. -/
def compute_doc_transform_distinct (m : GLM) (query_term_id int_doc_id : Nat)
    (doc : List Nat) : ℚ :=
  let filt := doc.filter (fun t => t ≠ 0)
  (filt.dedup.map (fun term_id =>
      m.sim (m.id2token term_id) (m.id2token query_term_id) * ((filt.count term_id : ℚ))
        / (m.doc_sim_sum int_doc_id * ((m.doc_len int_doc_id : ℚ))))).sum

/-- `compute_col_transform`: sum over the cached neighbours of the query
token of `cos_sim(query_vec, wv[neighbour]) / sum_nT[query_term]
* col_freq[token2id[neighbour]] / col_size`. -/
def compute_col_transform (m : GLM) (query_term_id : Nat) : ℚ :=
  let query_term := m.id2token query_term_id
  ((m.col_Nt query_term).map (fun neighbour =>
      m.sim query_term neighbour / m.sum_nT query_term
        * ((m.col_freq (m.token2id neighbour) : ℚ)) / ((col_size m : ℚ)))).sum

/-- The argument of `math.log` in `score`: the four component
probabilities combined with weights `lamb`, `alph`, `beta` and the
implicit background weight `1 - lamb - alph - beta`. -/
def combined_prob (m : GLM) (query_term_id int_doc_id : Nat) (doc : List Nat) : ℚ :=
  m.lamb * compute_term_likelihood m query_term_id int_doc_id +
    m.alph * compute_doc_transform m query_term_id int_doc_id doc +
    m.beta * compute_col_transform m query_term_id +
    (1 - m.lamb - m.alph - m.beta) * compute_bg_likelihood m query_term_id

/-- The accumulation loop of `score`: left to right over the query
terms, `score += math.log(combined probability)`; `math.log` raises
`ValueError: math domain error` on a non-positive argument, which
aborts the loop. -/
def score_terms (m : GLM) (int_doc_id : Nat) (doc : List Nat) : List Nat → Except String ℚ
  | [] => .ok 0
  | query_term_id :: rest =>
      let p := combined_prob m query_term_id int_doc_id doc
      if 0 < p then
        match score_terms m int_doc_id doc rest with
        | .error e => .error e
        | .ok s => .ok (m.log p + s)
      else
        .error ("math domain error")

/-- `score`: fetch the document term stream from the index, then sum the
log mixture probabilities of the query terms. -/
def score (m : GLM) (int_doc_id : Nat) (query : List Nat) : Except String ℚ :=
  score_terms m int_doc_id ((m.documents int_doc_id).2) query

/-- `np.triu_indices(n, 1)`: the index pairs `(i, j)` with
`0 ≤ i < j ≤ n - 1` of an `n × n` matrix, in row-major order. -/
def triuIndices (n : Nat) : List (Nat × Nat) :=
  ((List.range n).map (fun i =>
      ((List.range n).filter (fun j => i < j)).map (fun j => (i, j)))).flatten

/-- Entry `(i, j)` of the pairwise cosine-similarity matrix
`doc_model.dot(doc_model.T) / norms / norms.T` of `compute_doc_sim_sum`:
the cosine similarity of the embeddings of the `i`-th and `j`-th entries
of the filtered term stream. -/
def doc_sim_matrix (m : GLM) (filt : List Nat) (i j : Nat) : ℚ :=
  m.sim (m.id2token (filt.getD i 0)) (m.id2token (filt.getD j 0))

/-- The per-document body of `compute_doc_sim_sum`: filter the zero
padding from the term stream, form the pairwise cosine-similarity
matrix, slice it as `cos_sim[1:, 1:]`, and sum the entries at
`np.triu_indices(filter_doc_arr_len - 1, 1)`. -/
def compute_doc_sim_sum_doc (m : GLM) (doc : List Nat) : ℚ :=
  let filt := doc.filter (fun t => t ≠ 0)
  ((triuIndices (filt.length - 1)).map (fun p =>
      doc_sim_matrix m filt (p.1 + 1) (p.2 + 1))).sum

/-- `compute_doc_sim_sum`: the per-document cohesion sums for every
candidate document, as the mapping that the source pickles. -/
def compute_doc_sim_sum (m : GLM) (unique_ids : List Nat) : List (Nat × ℚ) :=
  unique_ids.map (fun int_doc_id =>
    (int_doc_id, compute_doc_sim_sum_doc m ((m.documents int_doc_id).2)))

/-- Lookup in the per-query score dict `scores[query_id]`, a defaultdict
with default value `0`, keyed by external document identifier.  The
dict is embedded as an association list where the most recent write is
at the head. -/
def scoresGet (scores : List (String × ℚ)) (ext_doc_id : String) : ℚ :=
  (scores.lookup ext_doc_id).getD 0

/-- The inner loop of `run` over the candidate documents of one query:
set `doc_is_in_inverted_index` when some query term has an entry for the
document in the inverted index; if so, score the document (a scoring
exception propagates and aborts everything); then append
`(scores[query_id][ext_doc_id], ext_doc_id)` to the data of the query
unless that score is `0`. -/
def process_docs (m : GLM) (query : List Nat) :
    List Nat → List (String × ℚ) → Except String (List (ℚ × String))
  | [], _ => .ok []
  | int_doc_id :: rest, scores =>
      let ext_doc_id := (m.documents int_doc_id).1
      let doc_is_in_inverted_index :=
        query.any (fun query_term_id => (m.inverted_index query_term_id int_doc_id).isSome)
      match (if doc_is_in_inverted_index then
          match score m int_doc_id query with
          | .error e => .error e
          | .ok s => .ok ((ext_doc_id, s) :: scores)
        else .ok scores : Except String (List (String × ℚ))) with
      | .error e => .error e
      | .ok scores1 =>
        match process_docs m query rest scores1 with
        | .error e => .error e
        | .ok data_rest =>
          if scoresGet scores1 ext_doc_id ≠ 0 then
            .ok ((scoresGet scores1 ext_doc_id, ext_doc_id) :: data_rest)
          else
            .ok data_rest

/-- The outer loop of `run` over `doc_col.items()`: each query is
looked up in the query table and its candidate documents are processed;
a scoring exception raised for any document of any query propagates out
of the whole loop. -/
def run_queries (m : GLM) : List (Nat × List Nat) →
    Except String (List (Nat × List (ℚ × String)))
  | [] => .ok []
  | qd :: rest =>
      match process_docs m (m.queries qd.1) qd.2 [] with
      | .error e => .error e
      | .ok recs =>
        match run_queries m rest with
        | .error e => .error e
        | .ok data_rest => .ok ((qd.1, recs) :: data_rest)

/-- `run(model_name, doc_col)` on the branch that receives a candidate
collection (the branch the repository drives in `__main__`).  The
filesystem is the list of existing paths; if the run file already
exists the run aborts returning `none` and touching nothing, otherwise
every query of `doc_col` is processed and the run file path is added to
the filesystem together with the collected data.  An uncaught scoring
exception is the `Except.error` case: nothing is written. -/
def run (m : GLM) (fs : List String) (model_name : String)
    (doc_col : List (Nat × List Nat)) :
    Except String (List String × Option (List (Nat × List (ℚ × String)))) :=
  let run_out_path := "../retrievals/" ++ model_name ++ ".run"
  if fs.contains run_out_path then
    .ok (fs, none)
  else
    match run_queries m doc_col with
    | .error e => .error e
    | .ok data => .ok (run_out_path :: fs, some data)

/-- State of a `TFIDF` instance: the configured sublinear transform
name, the abstract natural logarithm, and the inverse document
frequency.  `compute_idf` is inherited from `VectorSpaceModel`, a file
that is not part of the scoring engine sources; modelled from the spec:
the tf-idf baseline is an external collaborator whose idf is an opaque
per-term value, irrelevant to the transform dispatch and to the domain
of `log_tf`. -/
structure TFIDF where
  tf_transform : String
  log : ℚ → ℚ
  idf : Nat → ℚ

/-- `TFIDF.log_tf`: the sublinear transform `1 + math.log(doc_term_freq)`;
`math.log` raises `ValueError: math domain error` when the frequency is
not strictly positive. -/
def TFIDF.log_tf (m : TFIDF) (doc_term_freq : Nat) : Except String ℚ :=
  if 0 < doc_term_freq then .ok (1 + m.log ((doc_term_freq : ℚ)))
  else .error ("math domain error")

/-- `TFIDF.score`: dispatch on the configured transform name; only
`log` is supported, any other name raises `ValueError`; then multiply
the transformed frequency by the idf of the query term. -/
def TFIDF.score (m : TFIDF) (query_term_id doc_term_freq : Nat) : Except String ℚ := do
  let wtf ←
    if m.tf_transform = "log" then
      m.log_tf doc_term_freq
    else
      .error ("Unsupported term frequency transformation specified: " ++ m.tf_transform)
  pure (wtf * m.idf query_term_id)

/-- A neutral model state used as the base of the concrete test
fixtures below: empty corpus, empty tables, identity logarithm. -/
def defaultGLM : GLM where
  documents := fun _ => ("", [])
  inverted_index := fun _ _ => none
  queries := fun _ => []
  doc_len := fun _ => 0
  col_vocab := []
  col_freq := fun _ => 0
  id2token := fun n => toString n
  token2id := fun _ => 0
  sim := fun _ _ => 0
  doc_sim_sum := fun _ => 0
  col_Nt := fun _ => []
  sum_nT := fun _ => 0
  log := id
  lamb := 0
  alph := 0
  beta := 0

/-- Fixture: a collection frequency table with the single entry
`{2 : 5}` (term identifier 2, aggregate frequency 5). -/
def glmC1 : GLM :=
  { defaultGLM with col_vocab := [2], col_freq := fun t => if t = 2 then 5 else 0 }

/-- Fixture: constant similarity 1, cohesion sum 1, document length 2,
for probing the document transform on a two-occurrence document. -/
def glmC2 : GLM :=
  { defaultGLM with sim := fun _ _ => 1, doc_sim_sum := fun _ => 1, doc_len := fun _ => 2 }

/-- Fixture: document 1 has three retained terms, document 4 has one
retained term surrounded by zero padding; similarity constantly 1. -/
def glmDocs : GLM :=
  { defaultGLM with
      documents := fun d =>
        if d = 1 then ("D1", [4, 5, 6]) else if d = 4 then ("D4", [0, 5, 0]) else ("", []),
      sim := fun _ _ => 1 }

/-- Fixture: invalid mixture weights (`lamb = -1`, so the weights are
negative and the implicit background weight is 2), with one query of
one term that occurs in document 1. -/
def glmC5bad : GLM :=
  { defaultGLM with
      lamb := -1,
      inverted_index := fun t d => if t = 1 ∧ d = 1 then some 2 else none,
      doc_len := fun _ => 4,
      col_vocab := [1],
      col_freq := fun t => if t = 1 then 1 else 0,
      documents := fun d => if d = 1 then ("D1", []) else ("", []),
      queries := fun q => if q = 1 then [1] else [] }

/-- Fixture: `lamb = 1`; query term 1 has frequency 0 in document 1
(combined probability 0, a log domain error) and frequency 1 in
document 2 (combined probability 1).  The collection frequency table is
`{1 : 1}` with key sum 1, so the eagerly evaluated background
likelihood is the well-defined value 1 (weighted by the implicit weight
0) rather than a division by zero. -/
def glmC4 : GLM :=
  { defaultGLM with
      lamb := 1,
      inverted_index := fun t d =>
        if t = 1 ∧ d = 1 then some 0 else if t = 1 ∧ d = 2 then some 1 else none,
      doc_len := fun _ => 1,
      col_vocab := [1],
      col_freq := fun t => if t = 1 then 1 else 0,
      documents := fun d => if d = 1 then ("D1", []) else if d = 2 then ("D2", []) else ("", []),
      queries := fun q => if q = 1 then [1] else [] }

/-- Fixture: pure term-likelihood weights (`lamb = 1`), query term 1
occurring twice in document 5 of length 4; the collection frequency
table `{1 : 1}` keeps the eagerly evaluated background likelihood (here
weighted 0) well defined. -/
def glmC7 : GLM :=
  { defaultGLM with
      lamb := 1,
      inverted_index := fun t d => if t = 1 ∧ d = 5 then some 2 else none,
      doc_len := fun _ => 4,
      col_vocab := [1],
      col_freq := fun t => if t = 1 then 1 else 0 }

/-- Fixture: all explicit weights 0, so the combined probability is the
background likelihood, which is 1; term 1 occurs in document 1 (scored,
score 1) and in no other document (document 2 is skipped). -/
def glmC8 : GLM :=
  { defaultGLM with
      col_vocab := [1],
      col_freq := fun t => if t = 1 then 1 else 0,
      inverted_index := fun t d => if t = 1 ∧ d = 1 then some 1 else none,
      documents := fun d => if d = 1 then ("D1", []) else if d = 2 then ("D2", []) else ("", []) }

/-- Fixture: a tf-idf scorer configured with the supported transform. -/
def tfidfLog : TFIDF where
  tf_transform := "log"
  log := id
  idf := fun _ => 1

/-- Fixture: a tf-idf scorer configured with an unsupported transform
name. -/
def tfidfBad : TFIDF where
  tf_transform := "linear"
  log := id
  idf := fun _ => 1

/-- C1: evaluation of the collection-size aggregation at the table
`{2 : 5}`.  `sum(col_freq)` sums the dict KEYS, giving 2, while the
claim requires the sum of the frequency VALUES, 5; consequently the
background likelihood of term 2 is 5/2 instead of 1 and the background
distribution does not sum to 1 over the vocabulary. -/
theorem c1_col_size_sums_keys :
    col_size glmC1 = 2 ∧ col_size_values glmC1 = 5 ∧
      compute_bg_likelihood glmC1 2 = 5 / 2 ∧
      (glmC1.col_vocab.map (fun t => compute_bg_likelihood glmC1 t)).sum ≠ 1 := by
  refine ⟨rfl, rfl, ?_, ?_⟩ <;>
    norm_num [compute_bg_likelihood, col_size, glmC1, defaultGLM]

/-- C2 counterexample: on the document `[7, 7]` (one distinct term, two
occurrences), the source computes 2 while the claimed
one-contribution-per-distinct-term formula gives 1. -/
theorem c2_counterexample :
    compute_doc_transform glmC2 1 3 [7, 7] ≠ compute_doc_transform_distinct glmC2 1 3 [7, 7] := by
  norm_num [compute_doc_transform, compute_doc_transform_distinct, glmC2, defaultGLM,
    List.filter, List.dedup, List.count_cons, List.count_nil, List.insert]

/-- C2 (amended): `compute_doc_transform` iterates over every OCCURRENCE
of the filtered stream, so each distinct term contributes once per
occurrence, each contribution weighted by its in-document frequency: its
total contribution is frequency · (similarity · frequency), normalized
by the document-similarity-sum times the document length. -/
theorem c2_doc_transform_counts_occurrences (m : GLM) (query_term_id int_doc_id : Nat)
    (doc : List Nat) :
    compute_doc_transform m query_term_id int_doc_id doc =
      ∑ u ∈ (doc.filter (fun t => t ≠ 0)).toFinset,
        ((doc.filter (fun t => t ≠ 0)).count u : ℚ) *
          (m.sim (m.id2token u) (m.id2token query_term_id) *
              ((doc.filter (fun t => t ≠ 0)).count u : ℚ)
            / (m.doc_sim_sum int_doc_id * ((m.doc_len int_doc_id : ℚ)))) := by
  unfold compute_doc_transform
  rw [Finset.sum_list_map_count]
  simp [nsmul_eq_mul]

/-- C10: with the `log` transform configured, `TFIDF.score` has the
unstated precondition `doc_term_freq ≥ 1`: at frequency 0 the
`1 + math.log(doc_term_freq)` transform hits a logarithm domain error
instead of returning a score, while every strictly positive frequency
yields the score `(1 + log f) · idf`. -/
theorem c10_log_tf_requires_positive_freq (m : TFIDF) (query_term_id doc_term_freq : Nat)
    (h : m.tf_transform = "log") (hf : 0 < doc_term_freq) :
    TFIDF.score m query_term_id 0 = .error ("math domain error") ∧
      TFIDF.score m query_term_id doc_term_freq =
        .ok ((1 + m.log ((doc_term_freq : ℚ))) * m.idf query_term_id) := by
  constructor
  · simp [TFIDF.score, TFIDF.log_tf, h]
  · simp [TFIDF.score, TFIDF.log_tf, h, hf]

/-- C10 witness: the scorer configured with the `log` transform errors
at frequency 0 and scores frequency 3. -/
theorem c10_witness :
    TFIDF.score tfidfLog 7 0 = .error ("math domain error") ∧
      TFIDF.score tfidfLog 7 3 = .ok ((1 + tfidfLog.log ((3 : Nat) : ℚ)) * tfidfLog.idf 7) :=
  c10_log_tf_requires_positive_freq tfidfLog 7 3 rfl (by decide)

/-- Summing a function mapped over `List.range` is the `Finset.range`
sum. -/
theorem range_map_sum (g : Nat → ℚ) (k : Nat) :
    ((List.range k).map g).sum = ∑ j ∈ Finset.range k, g j := by
  induction k with
  | zero => simp
  | succ n ih => simp [List.range_succ, Finset.sum_range_succ, ih]

/-- Summing over the strict upper part of a range row is the guarded
`Finset.range` sum. -/
theorem range_filter_map_sum (i k : Nat) (g : Nat → ℚ) :
    (((List.range k).filter (fun j => i < j)).map g).sum =
      ∑ j ∈ Finset.range k, if i < j then g j else 0 := by
  induction k with
  | zero => simp
  | succ n ih =>
    by_cases h : i < n <;>
      simp [List.range_succ, List.filter_append, Finset.sum_range_succ, ih, h]

/-- Summing a function over `triuIndices n` is the guarded double
`Finset.range` sum over the strict upper triangle. -/
theorem triuIndices_map_sum (n : Nat) (f : Nat × Nat → ℚ) :
    ((triuIndices n).map f).sum =
      ∑ i ∈ Finset.range n, ∑ j ∈ Finset.range n, if i < j then f (i, j) else 0 := by
  unfold triuIndices
  rw [List.map_flatten]
  simp only [List.sum_flatten, List.map_map, Function.comp_def]
  rw [range_map_sum (fun i => (((List.range n).filter (fun j => i < j)).map
    (fun j => f (i, j))).sum) n]
  exact Finset.sum_congr rfl (fun i _ => range_filter_map_sum i n (fun j => f (i, j)))

/-- Re-indexing the strict upper triangle of a `(k+1) × (k+1)` region
with first row and column removed onto a `k × k` strict upper
triangle. -/
theorem shift_region_sum (k : Nat) (M : Nat → Nat → ℚ) :
    (∑ i ∈ Finset.range k, ∑ j ∈ Finset.range k, if i < j then M (i + 1) (j + 1) else 0) =
      ∑ i ∈ Finset.range (k + 1), ∑ j ∈ Finset.range (k + 1),
        if 1 ≤ i ∧ i < j then M i j else 0 := by
  rw [Finset.sum_range_succ'
    (fun i => ∑ j ∈ Finset.range (k + 1), if 1 ≤ i ∧ i < j then M i j else 0) k]
  have h0 : (∑ j ∈ Finset.range (k + 1), if 1 ≤ 0 ∧ 0 < j then M 0 j else 0) = 0 := by
    simp
  rw [h0, add_zero]
  refine Finset.sum_congr rfl (fun i _ => ?_)
  rw [Finset.sum_range_succ'
    (fun j => if 1 ≤ i + 1 ∧ i + 1 < j then M (i + 1) j else 0) k]
  simp [Nat.succ_lt_succ_iff]

/-- Looking up a candidate document in the similarity-sum mapping built
by `compute_doc_sim_sum` yields its per-document cohesion sum. -/
theorem compute_doc_sim_sum_lookup (m : GLM) (ids : List Nat) (d : Nat) (hmem : d ∈ ids) :
    (compute_doc_sim_sum m ids).lookup d =
      some (compute_doc_sim_sum_doc m ((m.documents d).2)) := by
  induction ids with
  | nil => cases hmem
  | cons a rest ih =>
    rcases List.mem_cons.mp hmem with h | h
    · subst h
      simp [compute_doc_sim_sum, List.lookup]
    · by_cases hda : d = a
      · subst hda
        simp [compute_doc_sim_sum, List.lookup]
      · have hb : (d == a) = false := by simp [hda]
        simpa [compute_doc_sim_sum, List.lookup, hb] using ih h

/-- The per-document cohesion sum equals the guarded double sum over the
region `1 ≤ i < j ≤ n - 1` of the similarity matrix of the filtered
stream. -/
theorem doc_sim_sum_doc_region (m : GLM) (doc : List Nat)
    (hn : 1 ≤ (doc.filter (fun t => t ≠ 0)).length) :
    compute_doc_sim_sum_doc m doc =
      ∑ i ∈ Finset.range ((doc.filter (fun t => t ≠ 0)).length),
        ∑ j ∈ Finset.range ((doc.filter (fun t => t ≠ 0)).length),
          if 1 ≤ i ∧ i < j then doc_sim_matrix m (doc.filter (fun t => t ≠ 0)) i j else 0 := by
  unfold compute_doc_sim_sum_doc
  rw [triuIndices_map_sum ((doc.filter (fun t => t ≠ 0)).length - 1)
    (fun p => doc_sim_matrix m (doc.filter (fun t => t ≠ 0)) (p.1 + 1) (p.2 + 1))]
  obtain ⟨k, hk⟩ : ∃ k, (doc.filter (fun t => t ≠ 0)).length = k + 1 :=
    ⟨(doc.filter (fun t => t ≠ 0)).length - 1, by omega⟩
  rw [hk]
  simp only [Nat.add_sub_cancel]
  exact shift_region_sum k (doc_sim_matrix m (doc.filter (fun t => t ≠ 0)))

/-- C3: for every candidate document with at least one retained term,
`compute_doc_sim_sum` maps it to the sum of pairwise cosine similarities
over the index pairs `i < j` of its filtered stream, restricted to the
region excluding the first retained term, i.e. `1 ≤ i < j ≤ n - 1`. -/
theorem c3_doc_sim_sum_region (m : GLM) (unique_ids : List Nat) (int_doc_id : Nat)
    (hmem : int_doc_id ∈ unique_ids)
    (hn : 1 ≤ (((m.documents int_doc_id).2).filter (fun t => t ≠ 0)).length) :
    (compute_doc_sim_sum m unique_ids).lookup int_doc_id = some
      (∑ i ∈ Finset.range ((((m.documents int_doc_id).2).filter (fun t => t ≠ 0)).length),
        ∑ j ∈ Finset.range ((((m.documents int_doc_id).2).filter (fun t => t ≠ 0)).length),
          if 1 ≤ i ∧ i < j then
            doc_sim_matrix m (((m.documents int_doc_id).2).filter (fun t => t ≠ 0)) i j
          else 0) := by
  rw [compute_doc_sim_sum_lookup m unique_ids int_doc_id hmem]
  rw [doc_sim_sum_doc_region m ((m.documents int_doc_id).2) hn]

/-- C3 witness: document 1 of the fixture has filtered stream
`[4, 5, 6]`; the summed region is the single pair `(1, 2)`. -/
theorem c3_witness :
    (compute_doc_sim_sum glmDocs [1]).lookup 1 = some
      (∑ i ∈ Finset.range (((( glmDocs.documents 1).2).filter (fun t => t ≠ 0)).length),
        ∑ j ∈ Finset.range (((( glmDocs.documents 1).2).filter (fun t => t ≠ 0)).length),
          if 1 ≤ i ∧ i < j then
            doc_sim_matrix glmDocs ((( glmDocs.documents 1).2).filter (fun t => t ≠ 0)) i j
          else 0) :=
  c3_doc_sim_sum_region glmDocs [1] 1 (by decide) (by decide)

/-- C9: a candidate document whose filtered stream has exactly one term
is mapped to the cohesion sum 0 (no pairs exist). -/
theorem c9_single_term_cohesion_zero (m : GLM) (unique_ids : List Nat) (int_doc_id : Nat)
    (hmem : int_doc_id ∈ unique_ids)
    (hlen : (((m.documents int_doc_id).2).filter (fun t => t ≠ 0)).length = 1) :
    (compute_doc_sim_sum m unique_ids).lookup int_doc_id = some 0 := by
  rw [compute_doc_sim_sum_lookup m unique_ids int_doc_id hmem]
  simp only [compute_doc_sim_sum_doc]
  rw [hlen]
  simp [triuIndices]

/-- C9 witness: document 4 of the fixture has term stream `[0, 5, 0]`,
whose filtered stream `[5]` has exactly one term; its cohesion sum is
0. -/
theorem c9_witness : (compute_doc_sim_sum glmDocs [4]).lookup 4 = some 0 :=
  c9_single_term_cohesion_zero glmDocs [4] 4 (by decide) (by decide)

/-- C7: with weights `lamb = 1`, `alph = 0`, `beta = 0`, whenever every
query term has strictly positive term likelihood the mixture collapses
exactly to the plain unsmoothed model: `score` is the sum over query
terms of the log term likelihood. -/
theorem c7_mixture_collapse (m : GLM) (int_doc_id : Nat) (query : List Nat)
    (hl : m.lamb = 1) (ha : m.alph = 0) (hb : m.beta = 0)
    (hpos : ∀ t ∈ query, 0 < compute_term_likelihood m t int_doc_id) :
    score m int_doc_id query =
      .ok ((query.map (fun t => m.log (compute_term_likelihood m t int_doc_id))).sum) := by
  unfold score
  induction query with
  | nil => simp [score_terms]
  | cons t rest ih =>
    have hcp : combined_prob m t int_doc_id ((m.documents int_doc_id).2) =
        compute_term_likelihood m t int_doc_id := by
      unfold combined_prob
      rw [hl, ha, hb]
      ring
    have hp : 0 < combined_prob m t int_doc_id ((m.documents int_doc_id).2) := by
      rw [hcp]
      exact hpos t (List.mem_cons_self t rest)
    have htp : 0 < compute_term_likelihood m t int_doc_id :=
      hpos t (List.mem_cons_self t rest)
    have hrest := ih (fun u hu => hpos u (List.mem_cons_of_mem t hu))
    simp [score_terms, hp, hrest, hcp, htp]

/-- C7 witness: query `[1]` against document 5 under the fixture with
`lamb = 1`, `alph = 0`, `beta = 0` and term likelihood 2/4. -/
theorem c7_witness :
    score glmC7 5 [1] =
      .ok (([1].map (fun t => glmC7.log (compute_term_likelihood glmC7 t 5))).sum) :=
  c7_mixture_collapse glmC7 5 [1] rfl rfl rfl (by
    intro t ht
    rw [List.mem_singleton] at ht
    subst ht
    norm_num [compute_term_likelihood, glmC7, defaultGLM])

/-- C6: if a run with `model_name` has already produced its output, a
second invocation of `run` with the same `model_name` performs no
scoring and no write: it returns immediately with the filesystem
untouched (the existing output file is left byte-identical) and no
data. -/
theorem c6_second_run_noop (m : GLM) (fs fs1 : List String) (model_name : String)
    (doc_col : List (Nat × List Nat)) (data : List (Nat × List (ℚ × String)))
    (h : run m fs model_name doc_col = .ok (fs1, some data)) :
    run m fs1 model_name doc_col = .ok (fs1, none) := by
  unfold run at h ⊢
  by_cases hc : fs.contains ("../retrievals/" ++ model_name ++ ".run")
  · rw [if_pos hc] at h
    simp at h
  · rw [if_neg hc] at h
    cases hm : run_queries m doc_col with
    | error e => rw [hm] at h; simp at h
    | ok v =>
      rw [hm] at h
      simp only [Except.ok.injEq, Prod.mk.injEq] at h
      obtain ⟨hfs, _⟩ := h
      rw [← hfs]
      have hcon : (("../retrievals/" ++ model_name ++ ".run") :: fs).contains
          ("../retrievals/" ++ model_name ++ ".run") = true := by
        simp
      rw [if_pos hcon]

/-- C6 witness: a first successful run on an empty filesystem followed
by a second run with the same model name, which is a no-op. -/
theorem c6_witness :
    run defaultGLM ["../retrievals/m.run"] "m" [] = .ok (["../retrievals/m.run"], none) :=
  c6_second_run_noop defaultGLM [] ["../retrievals/m.run"] "m" [] []
    (by simp [run, run_queries])

/-- When every query term has a strictly positive combined mixture
probability, the scoring loop completes and returns a value — for ANY
mixture weights, since `score` inspects no weight constraint. -/
theorem score_terms_ok_of_pos (m : GLM) (int_doc_id : Nat) (doc : List Nat) (query : List Nat)
    (hpos : ∀ t ∈ query, 0 < combined_prob m t int_doc_id doc) :
    ∃ r, score_terms m int_doc_id doc query = .ok r := by
  induction query with
  | nil => exact ⟨0, rfl⟩
  | cons t rest ih =>
    obtain ⟨r, hr⟩ := ih (fun u hu => hpos u (List.mem_cons_of_mem t hu))
    have hp := hpos t (List.mem_cons_self t rest)
    exact ⟨m.log (combined_prob m t int_doc_id doc) + r, by simp [score_terms, hp, hr]⟩

/-- C5 counterexample: the mixture weights of the fixture are invalid
(`lamb = -1` is negative, and the implicit background weight is 2), yet
construction succeeds, `score` returns a value, and `run` writes its
output — the configuration error is never reported. -/
theorem c5_counterexample :
    glmC5bad.lamb < 0 ∧ 1 < 1 - glmC5bad.lamb - glmC5bad.alph - glmC5bad.beta ∧
      score glmC5bad 1 [1] = .ok (3 / 2) ∧
      run glmC5bad [] "GLM" [(1, [1])] =
        .ok (["../retrievals/GLM.run"], some [(1, [(3 / 2, "D1")])]) := by
  refine ⟨by norm_num [glmC5bad, defaultGLM], by norm_num [glmC5bad, defaultGLM], ?_, ?_⟩
  · norm_num [score, score_terms, combined_prob, compute_term_likelihood,
      compute_bg_likelihood, compute_doc_transform, compute_col_transform, col_size,
      glmC5bad, defaultGLM]
  · norm_num [run, run_queries, process_docs, scoresGet, score, score_terms, combined_prob,
      compute_term_likelihood, compute_bg_likelihood, compute_doc_transform,
      compute_col_transform, col_size, glmC5bad, defaultGLM, List.lookup]
    decide

/-- C5 (amended): the unsupported-transform configuration error of the
TFIDF scorer is raised, at scoring time, as a `ValueError` naming the
transform; but the Mixture Scorer never validates its weights: for
arbitrary weights — negative or summing over 1 included — scoring
succeeds whenever every combined probability is positive, so an invalid
weight configuration is not reported. -/
theorem c5_no_weight_validation (mt : TFIDF) (m : GLM)
    (query_term_id doc_term_freq int_doc_id : Nat) (query : List Nat)
    (hname : mt.tf_transform ≠ "log")
    (hpos : ∀ t ∈ query, 0 < combined_prob m t int_doc_id ((m.documents int_doc_id).2)) :
    TFIDF.score mt query_term_id doc_term_freq =
        .error ("Unsupported term frequency transformation specified: " ++ mt.tf_transform) ∧
      ∃ r, score m int_doc_id query = .ok r := by
  constructor
  · simp [TFIDF.score, hname]
  · exact score_terms_ok_of_pos m int_doc_id ((m.documents int_doc_id).2) query hpos

/-- C5 witness: the `linear` transform errors; the invalid-weight
fixture scores successfully. -/
theorem c5_witness :
    TFIDF.score tfidfBad 7 3 =
        .error ("Unsupported term frequency transformation specified: " ++ tfidfBad.tf_transform) ∧
      ∃ r, score glmC5bad 1 [1] = .ok r :=
  c5_no_weight_validation tfidfBad glmC5bad 7 3 1 [1] (by decide) (by
    intro t ht
    rw [List.mem_singleton] at ht
    subst ht
    norm_num [combined_prob, compute_term_likelihood, compute_bg_likelihood,
      compute_doc_transform, compute_col_transform, col_size, glmC5bad, defaultGLM])

/-- Any error raised by the scoring loop carries the bare `math domain
error` message of `math.log` — no term or document identifier. -/
theorem score_terms_error_msg (m : GLM) (int_doc_id : Nat) (doc : List Nat)
    (query : List Nat) (e : String)
    (h : score_terms m int_doc_id doc query = .error e) : e = "math domain error" := by
  induction query with
  | nil => simp [score_terms] at h
  | cons t rest ih =>
    by_cases hp : 0 < combined_prob m t int_doc_id doc
    · cases hr : score_terms m int_doc_id doc rest with
      | error e2 =>
        simp [score_terms, hp, hr] at h
        subst h
        exact ih hr
      | ok r => simp [score_terms, hp, hr] at h
    · simp [score_terms, hp] at h
      exact h.symm

/-- If some query term has a non-positive combined probability, the
scoring loop raises the log domain error. -/
theorem score_terms_error_of_nonpos (m : GLM) (int_doc_id : Nat) (doc : List Nat)
    (query : List Nat) (t : Nat) (ht : t ∈ query)
    (hnp : ¬ 0 < combined_prob m t int_doc_id doc) :
    score_terms m int_doc_id doc query = .error ("math domain error") := by
  induction query with
  | nil => cases ht
  | cons a rest ih =>
    by_cases hp : 0 < combined_prob m a int_doc_id doc
    · have hta : t ≠ a := fun he => hnp (he ▸ hp)
      have ht2 : t ∈ rest := by
        rcases List.mem_cons.mp ht with h | h
        · exact absurd h hta
        · exact h
      simp [score_terms, hp, ih ht2]
    · simp [score_terms, hp]

/-- Any error raised by the per-query document loop is the propagated
log domain error. -/
theorem process_docs_error_msg (m : GLM) (query : List Nat) :
    ∀ (ds : List Nat) (scores : List (String × ℚ)) (e : String),
      process_docs m query ds scores = .error e → e = "math domain error" := by
  intro ds
  induction ds with
  | nil =>
    intro scores e h
    simp [process_docs] at h
  | cons a rest ih =>
    intro scores e h
    by_cases hin : (query.any fun u => (m.inverted_index u a).isSome) = true
    · cases hs : score m a query with
      | error e2 =>
        have he2 : e2 = "math domain error" :=
          score_terms_error_msg m a ((m.documents a).2) query e2 hs
        simp [process_docs, hin, hs] at h
        exact h ▸ he2
      | ok s =>
        cases hr : process_docs m query rest (((m.documents a).1, s) :: scores) with
        | error e2 =>
          simp [process_docs, hin, hs, hr] at h
          exact h ▸ ih (((m.documents a).1, s) :: scores) e2 hr
        | ok data_rest =>
          by_cases h0 : scoresGet (((m.documents a).1, s) :: scores) ((m.documents a).1) ≠ 0 <;>
            simp [process_docs, hin, hs, hr, h0] at h
    · have hin2 : (query.any fun u => (m.inverted_index u a).isSome) = false := by
        simpa using hin
      cases hr : process_docs m query rest scores with
      | error e2 =>
        simp [process_docs, hin2, hr] at h
        exact h ▸ ih scores e2 hr
      | ok data_rest =>
        by_cases h0 : scoresGet scores ((m.documents a).1) ≠ 0 <;>
          simp [process_docs, hin2, hr, h0] at h

/-- If some pending document is in the inverted index and its scoring
raises the log domain error, the per-query document loop raises it. -/
theorem process_docs_error_of_doc (m : GLM) (query : List Nat) :
    ∀ (ds : List Nat) (scores : List (String × ℚ)) (d : Nat), d ∈ ds →
      (query.any fun u => (m.inverted_index u d).isSome) = true →
      score m d query = .error ("math domain error") →
      process_docs m query ds scores = .error ("math domain error") := by
  intro ds
  induction ds with
  | nil =>
    intro scores d hd
    cases hd
  | cons a rest ih =>
    intro scores d hd hin hsc
    rcases List.mem_cons.mp hd with rfl | hd2
    · simp [process_docs, hin, hsc]
    · by_cases hina : (query.any fun u => (m.inverted_index u a).isSome) = true
      · cases hs : score m a query with
        | error e2 =>
          have he2 : e2 = "math domain error" :=
            score_terms_error_msg m a ((m.documents a).2) query e2 hs
          simp [process_docs, hina, hs, he2]
        | ok s =>
          simp [process_docs, hina, hs,
            ih (((m.documents a).1, s) :: scores) d hd2 hin hsc]
      · have hina2 : (query.any fun u => (m.inverted_index u a).isSome) = false := by
          simpa using hina
        simp [process_docs, hina2, ih scores d hd2 hin hsc]

/-- If the document loop of some query raises the log domain error, the
query loop raises it. -/
theorem run_queries_error_of_query (m : GLM) :
    ∀ (doc_col : List (Nat × List Nat)) (q : Nat) (ds : List Nat), (q, ds) ∈ doc_col →
      process_docs m (m.queries q) ds [] = .error ("math domain error") →
      run_queries m doc_col = .error ("math domain error") := by
  intro doc_col
  induction doc_col with
  | nil =>
    intro q ds hq
    cases hq
  | cons a rest ih =>
    intro q ds hq hp
    rcases List.mem_cons.mp hq with rfl | hq2
    · simp [run_queries, hp]
    · cases hpa : process_docs m (m.queries a.1) a.2 [] with
      | error e2 =>
        have he2 : e2 = "math domain error" :=
          process_docs_error_msg m (m.queries a.1) a.2 [] e2 hpa
        simp [run_queries, hpa, he2]
      | ok recs =>
        simp [run_queries, hpa, ih q ds hq2 hp]

/-- C4 (amended): if a candidate document of some query is in the
inverted index and one of the query terms has a non-positive combined
probability, `math.log` raises a bare `math domain error` — a
diagnostic that identifies neither the term nor the document — and,
since the driver installs no handler, the exception aborts the ENTIRE
run: no pair is written, not even the unaffected ones. -/
theorem c4_run_aborts (m : GLM) (fs : List String) (model_name : String)
    (doc_col : List (Nat × List Nat)) (q : Nat) (ds : List Nat) (int_doc_id t : Nat)
    (hnc : ("../retrievals/" ++ model_name ++ ".run") ∉ fs)
    (hqd : (q, ds) ∈ doc_col) (hd : int_doc_id ∈ ds)
    (hin : ((m.queries q).any fun u => (m.inverted_index u int_doc_id).isSome) = true)
    (ht : t ∈ m.queries q)
    (hnp : combined_prob m t int_doc_id ((m.documents int_doc_id).2) ≤ 0) :
    run m fs model_name doc_col = .error ("math domain error") := by
  have hsc : score m int_doc_id (m.queries q) = .error ("math domain error") :=
    score_terms_error_of_nonpos m int_doc_id ((m.documents int_doc_id).2)
      (m.queries q) t ht (not_lt.mpr hnp)
  have hpd : process_docs m (m.queries q) ds [] = .error ("math domain error") :=
    process_docs_error_of_doc m (m.queries q) ds [] int_doc_id hd hin hsc
  have hrq : run_queries m doc_col = .error ("math domain error") :=
    run_queries_error_of_query m doc_col q ds hqd hpd
  unfold run
  rw [if_neg (by simpa using hnc), hrq]

/-- C4 counterexample: in the fixture, query 1 hits a zero combined
probability on document 1 while document 2 would score 1; the run
aborts entirely with the bare `math domain error` instead of excluding
only the failing pair and keeping document 2. -/
theorem c4_counterexample :
    run glmC4 [] "GLM" [(1, [1, 2])] = .error ("math domain error") ∧
      score glmC4 2 [1] = .ok 1 := by
  constructor
  · norm_num [run, run_queries, process_docs, scoresGet, score, score_terms, combined_prob,
      compute_term_likelihood, compute_bg_likelihood, compute_doc_transform,
      compute_col_transform, col_size, glmC4, defaultGLM, List.lookup]
  · norm_num [score, score_terms, combined_prob, compute_term_likelihood,
      compute_bg_likelihood, compute_doc_transform, compute_col_transform, col_size,
      glmC4, defaultGLM]

/-- C4 witness: the abort theorem applied to the fixture run. -/
theorem c4_witness : run glmC4 [] "GLM2" [(1, [1, 2])] = .error ("math domain error") :=
  c4_run_aborts glmC4 [] "GLM2" [(1, [1, 2])] 1 [1, 2] 1 1 (by decide) (by decide)
    (by decide) (by decide) (by decide)
    (by norm_num [combined_prob, compute_term_likelihood, compute_bg_likelihood,
      compute_doc_transform, compute_col_transform, col_size, glmC4, defaultGLM])

/-- Membership invariant of the per-query document loop: provided the
external identifiers of the pending documents are pairwise distinct and
none is already a key of the score dict, a pair `(s, e)` is recorded
exactly when some pending document has external identifier `e`, contains
a query term per the inverted index, and scores `s` with `s ≠ 0`. -/
theorem process_docs_mem (m : GLM) (query : List Nat) :
    ∀ (ds : List Nat) (scores : List (String × ℚ)) (recs : List (ℚ × String)),
      (ds.map (fun d => (m.documents d).1)).Nodup →
      (∀ d ∈ ds, scores.lookup ((m.documents d).1) = none) →
      process_docs m query ds scores = .ok recs →
      ∀ (s : ℚ) (e : String),
        ((s, e) ∈ recs ↔ ∃ d ∈ ds, (m.documents d).1 = e ∧
          (query.any fun u => (m.inverted_index u d).isSome) = true ∧
          score m d query = .ok s ∧ s ≠ 0) := by
  intro ds
  induction ds with
  | nil =>
    intro scores recs _ _ hok s e
    simp only [process_docs, Except.ok.injEq] at hok
    subst hok
    simp
  | cons a rest ih =>
    intro scores recs hnd hdisj hok s e
    have hnd2 : (rest.map (fun d => (m.documents d).1)).Nodup := (List.nodup_cons.mp hnd).2
    have hanotin : (m.documents a).1 ∉ rest.map (fun d => (m.documents d).1) :=
      (List.nodup_cons.mp hnd).1
    by_cases hin : (query.any fun u => (m.inverted_index u a).isSome) = true
    · cases hs : score m a query with
      | error e2 => simp [process_docs, hin, hs] at hok
      | ok sa =>
        cases hr : process_docs m query rest (((m.documents a).1, sa) :: scores) with
        | error e2 => simp [process_docs, hin, hs, hr] at hok
        | ok data_rest =>
          have hlook : scoresGet (((m.documents a).1, sa) :: scores) ((m.documents a).1)
              = sa := by
            simp [scoresGet, List.lookup]
          have hdisj2 : ∀ d ∈ rest,
              ((((m.documents a).1, sa) :: scores)).lookup ((m.documents d).1) = none := by
            intro d hd
            have hne : ((m.documents d).1 == (m.documents a).1) = false := by
              simp only [beq_eq_false_iff_ne, ne_eq]
              intro hcontra
              exact hanotin (hcontra ▸ List.mem_map_of_mem (fun d => (m.documents d).1) hd)
            simp only [List.lookup, hne]
            exact hdisj d (List.mem_cons_of_mem a hd)
          have hih := ih (((m.documents a).1, sa) :: scores) data_rest hnd2 hdisj2 hr s e
          by_cases hsa : sa = 0
          · subst hsa
            have hok2 : data_rest = recs := by
              simpa [process_docs, hin, hs, hr, hlook] using hok
            subst hok2
            rw [hih]
            constructor
            · rintro ⟨d, hd, he, hind, hscd, hs0⟩
              exact ⟨d, List.mem_cons_of_mem a hd, he, hind, hscd, hs0⟩
            · rintro ⟨d, hd, he, hind, hscd, hs0⟩
              rcases List.mem_cons.mp hd with rfl | hd2
              · rw [hs] at hscd
                cases hscd
                exact absurd rfl hs0
              · exact ⟨d, hd2, he, hind, hscd, hs0⟩
          · have hok2 : (sa, (m.documents a).1) :: data_rest = recs := by
              simpa [process_docs, hin, hs, hr, hlook, hsa] using hok
            subst hok2
            constructor
            · intro hmem
              rcases List.mem_cons.mp hmem with hpair | hrest2
              · simp only [Prod.mk.injEq] at hpair
                obtain ⟨rfl, rfl⟩ := hpair
                exact ⟨a, List.mem_cons_self a rest, rfl, hin, hs, hsa⟩
              · obtain ⟨d, hd, he, hind, hscd, hs0⟩ := hih.mp hrest2
                exact ⟨d, List.mem_cons_of_mem a hd, he, hind, hscd, hs0⟩
            · rintro ⟨d, hd, he, hind, hscd, hs0⟩
              rcases List.mem_cons.mp hd with rfl | hd2
              · rw [hs] at hscd
                cases hscd
                subst he
                exact List.mem_cons_self _ _
              · exact List.mem_cons_of_mem _ (hih.mpr ⟨d, hd2, he, hind, hscd, hs0⟩)
    · have hin2 : (query.any fun u => (m.inverted_index u a).isSome) = false := by
        simpa using hin
      cases hr : process_docs m query rest scores with
      | error e2 => simp [process_docs, hin2, hr] at hok
      | ok data_rest =>
        have hlook : scoresGet scores ((m.documents a).1) = 0 := by
          simp [scoresGet, hdisj a (List.mem_cons_self a rest)]
        have hdisj2 : ∀ d ∈ rest, scores.lookup ((m.documents d).1) = none :=
          fun d hd => hdisj d (List.mem_cons_of_mem a hd)
        have hih := ih scores data_rest hnd2 hdisj2 hr s e
        have hok2 : data_rest = recs := by
          simpa [process_docs, hin2, hr, hlook] using hok
        subst hok2
        rw [hih]
        constructor
        · rintro ⟨d, hd, he, hind, hscd, hs0⟩
          exact ⟨d, List.mem_cons_of_mem a hd, he, hind, hscd, hs0⟩
        · rintro ⟨d, hd, he, hind, hscd, hs0⟩
          rcases List.mem_cons.mp hd with rfl | hd2
          · rw [hind] at hin
            exact absurd hin (by simp)
          · exact ⟨d, hd2, he, hind, hscd, hs0⟩

/-- C8: for every query and candidate document considered by the run
loop (with distinct external identifiers), the pair
`(score, external_document_id)` is recorded in the query data exactly
when the document contains at least one query term per the inverted
index and its score is not exactly zero; documents failing either
condition are skipped without error. -/
theorem c8_record_iff (m : GLM) (query : List Nat) (ds : List Nat) (recs : List (ℚ × String))
    (hnd : (ds.map (fun d => (m.documents d).1)).Nodup)
    (hok : process_docs m query ds [] = .ok recs) (s : ℚ) (e : String) :
    (s, e) ∈ recs ↔ ∃ d ∈ ds, (m.documents d).1 = e ∧
      (query.any fun u => (m.inverted_index u d).isSome) = true ∧
      score m d query = .ok s ∧ s ≠ 0 :=
  process_docs_mem m query ds [] recs hnd (fun _ _ => rfl) hok s e

/-- C8 witness: in the fixture, document 1 contains query term 1 and
scores 1 (recorded), document 2 contains no query term (skipped). -/
theorem c8_witness :
    (((1 : ℚ), "D1") ∈ [((1 : ℚ), "D1")] ↔ ∃ d ∈ [1, 2], (glmC8.documents d).1 = "D1" ∧
      (([1] : List Nat).any fun u => (glmC8.inverted_index u d).isSome) = true ∧
      score glmC8 d [1] = .ok 1 ∧ (1 : ℚ) ≠ 0) :=
  c8_record_iff glmC8 [1] [1, 2] [((1 : ℚ), "D1")] (by decide)
    (by
      norm_num [process_docs, scoresGet, score, score_terms, combined_prob,
        compute_term_likelihood, compute_bg_likelihood, compute_doc_transform,
        compute_col_transform, col_size, glmC8, defaultGLM, List.lookup]
      simp) 1 "D1"

end IR
